import Mathlib

/-!
Verification development for the pgweb community-authentication broker
(src/pgweb/account/views.py) and the documentation version resolution
(src/pgweb/docs/views.py).

Bytes are modelled as natural numbers below 256, byte strings as
List Nat, Python str as Lean String.  The AES block primitive is an
external library call in the source, so it is passed in as an explicit
parameter E : key -> block -> block; the CBC chaining, padding, base64
coding, percent-coding and all control flow are embedded from the source.
-/

set_option maxRecDepth 20000

/-- The 62 shared base64 alphabet characters, in order. -/
def b64alphabet : List Char :=
  "ABCDEFGHIJKLMNOPQRSTUVWXYZabcdefghijklmnopqrstuvwxyz0123456789".toList

/-- Base64 character table with the two replaceable characters appended;
the source calls base64.b64encode(_, b"-_"), substituting + -> - and / -> _. -/
def b64table (c62 c63 : Char) : List Char :=
  b64alphabet ++ [c62, c63]

/-- Index into a base64 character table. -/
def b64char (c62 c63 : Char) (n : Nat) : Char :=
  (b64table c62 c63).getD n 'A'

/-- Core of Python base64.b64encode: 3 bytes -> 4 characters, with
'=' padding for a 1- or 2-byte tail. -/
def b64encodeRaw (c62 c63 : Char) : List Nat → List Char
  | [] => []
  | [a] => [b64char c62 c63 (a / 4), b64char c62 c63 (a % 4 * 16), '=', '=']
  | [a, b] => [b64char c62 c63 (a / 4), b64char c62 c63 (a % 4 * 16 + b / 16),
               b64char c62 c63 (b % 16 * 4), '=']
  | a :: b :: c :: rest =>
      b64char c62 c63 (a / 4) :: b64char c62 c63 (a % 4 * 16 + b / 16) ::
      b64char c62 c63 (b % 16 * 4 + c / 64) :: b64char c62 c63 (c % 64) ::
      b64encodeRaw c62 c63 rest

/-- base64.b64encode(bs, b"-_"): standard base64 with the URL-safe
alphabet substitution.  Padding characters are produced exactly as by
Python (b64encode always pads). -/
def b64encodeAlt (bs : List Nat) : String :=
  String.mk (b64encodeRaw '-' '_' bs)

/-- Value of a character in the standard base64 alphabet (used for
decoding the stored site cryptkey). -/
def b64val (c : Char) : Nat :=
  if 'A' ≤ c ∧ c ≤ 'Z' then c.toNat - 65
  else if 'a' ≤ c ∧ c ≤ 'z' then c.toNat - 71
  else if '0' ≤ c ∧ c ≤ '9' then c.toNat + 4
  else if c = '+' then 62
  else if c = '/' then 63
  else 0

/-- Core of base64.b64decode on the padding-stripped character list. -/
def b64decodeRaw : List Char → List Nat
  | a :: b :: c :: d :: rest =>
      (b64val a * 4 + b64val b / 16) ::
      (b64val b % 16 * 16 + b64val c / 4) ::
      (b64val c % 4 * 64 + b64val d) ::
      b64decodeRaw rest
  | [a, b] => [b64val a * 4 + b64val b / 16]
  | [a, b, c] => [b64val a * 4 + b64val b / 16, b64val b % 16 * 16 + b64val c / 4]
  | _ => []

/-- base64.b64decode on a well-formed standard-alphabet input. -/
def b64decode (s : String) : List Nat :=
  b64decodeRaw (s.toList.filter (fun c => c ≠ '='))

/-- Uppercase hexadecimal digit, as used by urllib percent-escapes. -/
def hexDigit (n : Nat) : Char :=
  "0123456789ABCDEF".toList.getD n '0'

/-- A percent-escape %XX for one byte. -/
def pctByte (b : Nat) : List Char :=
  ['%', hexDigit (b / 16 % 16), hexDigit (b % 16)]

/-- UTF-8 encoding of one character, bytes as Nat. -/
def utf8Bytes (c : Char) : List Nat :=
  let n := c.toNat
  if n < 128 then [n]
  else if n < 2048 then [192 + n / 64, 128 + n % 64]
  else if n < 65536 then [224 + n / 4096, 128 + n / 64 % 64, 128 + n % 64]
  else [240 + n / 262144, 128 + n / 4096 % 64, 128 + n / 64 % 64, 128 + n % 64]

/-- The characters urllib.parse.quote never escapes:
ASCII letters, digits and _.-~ . -/
def quoteAlwaysSafe (c : Char) : Bool :=
  c.isAlpha || c.isDigit || c = '_' || c = '.' || c = '-' || c = '~'

/-- urllib.parse.quote_plus on one character with extra safe characters:
safe characters kept, space becomes +, everything else percent-escaped
through UTF-8. -/
def quotePlusChar (safe : List Char) (c : Char) : List Char :=
  if quoteAlwaysSafe c || safe.contains c then [c]
  else if c = ' ' then ['+']
  else (utf8Bytes c).foldr (fun b acc => pctByte b ++ acc) []

/-- urllib.parse.quote_plus(s, safe). -/
def quote_plus (safe : List Char) (s : String) : String :=
  String.mk (s.toList.foldr (fun c acc => quotePlusChar safe c ++ acc) [])

/-- urllib.parse.urlencode of an ordered dictionary of string fields
(the source passes UTF-8 encoded bytes values; quoting bytes with
quote_plus coincides with quoting the string per character). -/
def urlencodeDict (l : List (String × String)) : String :=
  String.intercalate "&" (l.map (fun kv => kv.1 ++ "=" ++ quote_plus [] kv.2))

example : b64encodeAlt (List.replicate 16 0) = "AAAAAAAAAAAAAAAAAAAAAA==" := by decide
example : b64encodeAlt [251, 255, 191, 251, 255, 191] = "-_-_-_-_" := by decide
example : quote_plus ['=', '$'] "abc~._-=$ +/" = "abc~._-=$+%2B%2F" := by decide
example : b64decode "AAAAAAAAAAAAAAAAAAAAAA==" = List.replicate 16 0 := by decide
example : urlencodeDict [("u", "a b/c"), ("se", "")] = "u=a+b%2Fc&se=" := by decide

/-! ## AES-CBC encryption as in the source

The source does: iv = Random.new().read(16);
AES.new(base64.b64decode(site.cryptkey), AES.MODE_CBC, iv);
encryptor.encrypt(s.encode('ascii') + b' ' * (16 - (len(s) % 16))). -/

/-- Byte-wise xor of two equal-length blocks. -/
def xorBytes (a b : List Nat) : List Nat :=
  List.zipWith Nat.xor a b

/-- Split a byte string into 16-byte blocks; the fuel argument (any
bound on the number of blocks, the caller passes the length) only makes
the recursion structural, it never runs out. -/
def toBlocksAux : Nat → List Nat → List (List Nat)
  | _, [] => []
  | 0, l => [l]
  | fuel + 1, l => l.take 16 :: toBlocksAux fuel (l.drop 16)

/-- Split a byte string into 16-byte blocks. -/
def toBlocks (l : List Nat) : List (List Nat) :=
  toBlocksAux l.length l

/-- The space padding the source appends before encrypting:
b' ' * (16 - (len(s) % 16)); note a string of length divisible by 16
still receives 16 spaces. -/
def pad16 (bs : List Nat) : List Nat :=
  bs ++ List.replicate (16 - bs.length % 16) 32

/-- CBC chaining over 16-byte blocks with block primitive E. -/
def cbcEncrypt (E : List Nat → List Nat → List Nat) (key iv : List Nat) :
    List (List Nat) → List (List Nat)
  | [] => []
  | b :: rest =>
      let c := E key (xorBytes iv b)
      c :: cbcEncrypt E key c rest

/-- Bytes of the ASCII plaintext string (all payloads built by the
source are ASCII: percent-coded values and fixed keys). -/
def strBytes (s : String) : List Nat :=
  s.toList.map Char.toNat

/-- Full ciphertext bytes for a plaintext string: pad, split into
blocks, CBC-encrypt, concatenate. -/
def cbcCipher (E : List Nat → List Nat → List Nat) (key iv : List Nat) (s : String) :
    List Nat :=
  (cbcEncrypt E key iv (toBlocks (pad16 (strBytes s)))).foldr (· ++ ·) []

/-! ## Random stream

Random.new().read(16) is modelled as reading 16 bytes from an infinite
byte stream at the current position; each read advances the position,
so successive reads always consume fresh, disjoint stream segments. -/

structure RngState where
  stream : Nat → Nat
  pos : Nat

/-- The n bytes a read returns at the current position. -/
def rngBytes (r : RngState) (n : Nat) : List Nat :=
  (List.range n).map (fun i => r.stream (r.pos + i) % 256)

/-- Random.read(n): returned bytes and advanced generator state. -/
def rngRead (r : RngState) (n : Nat) : List Nat × RngState :=
  (rngBytes r n, ⟨r.stream, r.pos + n⟩)

/-! ## Data model (fields as used by the views; the ORM models
themselves are external to this excerpt). -/

structure AuthOrg where
  oid : Nat
  orgname : String
  require_consent : Bool
deriving Repr, DecidableEq

structure AuthSite where
  sid : Nat
  name : String
  redirecturl : String
  cryptkey : String
  cooloff_hours : Nat
  org : AuthOrg
deriving Repr, DecidableEq

structure AuthUser where
  uid : Nat
  username : String
  first_name : String
  last_name : String
  email : String
  date_joined : Int
  last_login : Int
deriving Repr, DecidableEq

structure SecondaryEmailRec where
  email : String
  confirmed : Bool
deriving Repr, DecidableEq

structure ConsentRec where
  uid : Nat
  oid : Nat
  consentgiven : Int
deriving Repr, DecidableEq

structure LLRec where
  uid : Nat
  sid : Nat
  lastlogin : Int
  logincount : Nat
deriving Repr, DecidableEq

/-- The GET/POST data of a request to the communityauth endpoint. -/
structure AuthRequest where
  su : Option String
  d : Option String
  authenticated : Bool
  isLoginPost : Bool
  postNext : String
deriving Repr, DecidableEq

/-- The possible outcomes of the communityauth view. -/
inductive AuthResult where
  | loginForm (sitename nexturl : String)
  | noinfo
  | cooloff (sitename : String)
  | consentRedirect (url : String)
  | redirect (url : String)
deriving Repr, DecidableEq

/-! ## The communityauth view (src/pgweb/account/views.py lines 439-548) -/

/-- Python truthiness of an optional string: present and non-empty. -/
def optTruthy : Option String → Bool
  | some s => !s.isEmpty
  | none => false

/-- str.startswith, over the character lists. -/
def strStartsWith (s p : String) : Bool :=
  p.toList.isPrefixOf s.toList

/-- Lines 445-450: the legacy su parameter is kept only when it starts
with a slash, otherwise silently set to None. -/
def processSu : Option String → Option String
  | some su => if strStartsWith su "/" then some su else none
  | none => none

/-- Lines 454-460: the d parameter is kept only when it equals its own
quote_plus(d, safe = the two characters equals and dollar) image,
otherwise silently set to None. -/
def processD : Option String → Option String
  | some d => if d = quote_plus ['=', '$'] d then some d else none
  | none => none

/-- Lines 462-467: the urldata fragment carried through login and
consent redirects. -/
def urldataOf (d su : Option String) : String :=
  if optTruthy d then "?d=" ++ d.getD ""
  else if optTruthy su then "?su=" ++ su.getD ""
  else ""

/-- Lexicographic order on character lists (string comparison). -/
def charListLt : List Char → List Char → Bool
  | [], [] => false
  | [], _ :: _ => true
  | _ :: _, [] => false
  | a :: as, b :: bs => if a < b then true else if b < a then false else charListLt as bs

/-- Lexicographic string comparison, computably. -/
def strLt (a b : String) : Bool :=
  charListLt a.toList b.toList

/-- order_by('email'): insert one record into an email-sorted list. -/
def insertByEmail (x : SecondaryEmailRec) : List SecondaryEmailRec → List SecondaryEmailRec
  | [] => [x]
  | y :: ys => if strLt y.email x.email then y :: insertByEmail x ys else x :: y :: ys

/-- order_by('email'): sort secondary email records by email address. -/
def sortByEmail (l : List SecondaryEmailRec) : List SecondaryEmailRec :=
  l.foldr insertByEmail []

/-- The comma-joined sorted confirmed secondary emails of line 526. -/
def secondaryEmailsJoined (ses : List SecondaryEmailRec) : String :=
  String.intercalate "," ((sortByEmail (ses.filter (fun a => a.confirmed))).map (fun a => a.email))

/-- Lines 521-531: the info dictionary, in insertion order. -/
def authInfoFields (user : AuthUser) (ses : List SecondaryEmailRec) (d su : Option String) :
    List (String × String) :=
  [("u", user.username), ("f", user.first_name), ("l", user.last_name),
   ("e", user.email), ("se", secondaryEmailsJoined ses)]
  ++ (if optTruthy d then [("d", d.getD "")]
      else if optTruthy su then [("su", su.getD "")]
      else [])

/-- Line 535: the serialized record, timestamp field first. -/
def serializeAuthRecord (t : Int) (user : AuthUser) (ses : List SecondaryEmailRec)
    (d su : Option String) : String :=
  "t=" ++ toString t ++ "&" ++ urlencodeDict (authInfoFields user ses d su)

/-- CommunityAuthConsent.objects.filter(org=site.org, user=request.user).exists(). -/
def consentExists (l : List ConsentRec) (uid oid : Nat) : Bool :=
  l.any (fun c => c.uid = uid && c.oid = oid)

/-- Lines 568-570: CommunityAuthConsent.objects.get_or_create(user, org,
defaults=consentgiven=now). -/
def consent_get_or_create (l : List ConsentRec) (uid oid : Nat) (now : Int) :
    List ConsentRec :=
  if consentExists l uid oid then l else l ++ [⟨uid, oid, now⟩]

/-- Lines 515-519: INSERT INTO account_communityauthlastlogin ... ON
CONFLICT (user_id, site_id) DO UPDATE SET lastlogin=CURRENT_TIMESTAMP,
logincount=logincount+1, as one table transformation. -/
def upsertLastLogin (tbl : List LLRec) (uid sid : Nat) (now : Int) : List LLRec :=
  if tbl.any (fun r => r.uid = uid && r.sid = sid) then
    tbl.map (fun r => if r.uid = uid && r.sid = sid then
      { r with lastlogin := now, logincount := r.logincount + 1 } else r)
  else tbl ++ [⟨uid, sid, now, 1⟩]

/-- Lines 544-548: the final redirect to the partner site with the two
query parameters i (IV) and d (ciphertext). -/
def successRedirectUrl (E : List Nat → List Nat → List Nat) (site : AuthSite)
    (rng : RngState) (s : String) : String :=
  site.redirecturl ++ "?i=" ++ b64encodeAlt (rngBytes rng 16) ++ "&d=" ++
    b64encodeAlt (cbcCipher E (b64decode site.cryptkey) (rngBytes rng 16) s)

/-- The communityauth view, lines 439-548.  now stands for the single
wall clock the source samples via datetime.now(), time.time() and the
database CURRENT_TIMESTAMP; E is the external AES block primitive.
Returns the HTTP outcome, the login-count table after the request and
the random generator state after the request. -/
def communityauth (E : List Nat → List Nat → List Nat) (site : AuthSite)
    (req : AuthRequest) (user : AuthUser) (ses : List SecondaryEmailRec)
    (consents : List ConsentRec) (lastlogins : List LLRec) (now : Int)
    (rng : RngState) : AuthResult × List LLRec × RngState :=
  let su := processSu req.su
  let d := processD req.d
  let urldata := urldataOf d su
  if !req.authenticated then
    let nexturl := if req.isLoginPost then req.postNext
      else "/account/auth/" ++ toString site.sid ++ "/" ++ urldata
    (.loginForm site.name nexturl, lastlogins, rng)
  else if user.first_name = "" || user.last_name = "" || user.email = "" then
    (.noinfo, lastlogins, rng)
  else if site.cooloff_hours > 0 &&
      decide (now - user.date_joined < 3600 * (site.cooloff_hours : Int)) then
    (.cooloff site.name, lastlogins, rng)
  else if site.org.require_consent && !consentExists consents user.uid site.org.oid then
    (.consentRedirect ("/account/auth/" ++ toString site.sid ++ "/consent/?" ++
      urlencodeDict [("next", "/account/auth/" ++ toString site.sid ++ "/" ++ urldata)]),
     lastlogins, rng)
  else
    let tbl := upsertLastLogin lastlogins user.uid site.sid now
    let s := serializeAuthRecord now user ses d su
    (.redirect (successRedirectUrl E site rng s), tbl, (rngRead rng 16).2)

/-- Lines 583-594: _encrypt_site_response, the body returned to a
partner backend: base64 IV, an ampersand, base64 ciphertext. -/
def encrypt_site_response (E : List Nat → List Nat → List Nat) (site : AuthSite)
    (s : String) (rng : RngState) : String × RngState :=
  let ivr := rngRead rng 16
  (b64encodeAlt ivr.1 ++ "&" ++
     b64encodeAlt (cbcCipher E (b64decode site.cryptkey) ivr.1 s), ivr.2)

/-! ## Concrete fixtures used by closed theorems. -/

/-- A concrete stand-in for the external AES block primitive. -/
def Eid : List Nat → List Nat → List Nat := fun _ b => b

def org0 : AuthOrg := ⟨1, "Org", false⟩

def orgC : AuthOrg := ⟨2, "OrgC", true⟩

/-- A partner site with no cooloff and no consent requirement;
its cryptkey decodes to 16 zero bytes. -/
def site0 : AuthSite := ⟨3, "Site", "https://ex.org/auth", "AAAAAAAAAAAAAAAAAAAAAA==", 0, org0⟩

/-- A partner site with a 48 hour cooloff period. -/
def site48 : AuthSite := ⟨4, "SiteB", "https://ex.org/auth", "AAAAAAAAAAAAAAAAAAAAAA==", 48, org0⟩

/-- A partner site whose organisation requires consent. -/
def siteC : AuthSite := ⟨5, "SiteC", "https://ex.org/auth", "AAAAAAAAAAAAAAAAAAAAAA==", 0, orgC⟩

def user0 : AuthUser := ⟨7, "alice", "Alice", "Ann", "a@ex.org", 0, 0⟩

/-- A user whose first name is empty. -/
def userNoInfo : AuthUser := ⟨8, "bob", "", "B", "b@ex.org", 0, 0⟩

/-- An all-zero random stream at position 0. -/
def rng0 : RngState := ⟨fun _ => 0, 0⟩

def req1 : AuthRequest := ⟨none, none, true, false, ""⟩

/-- Request carrying d = "$" and su = "/x". -/
def req4 : AuthRequest := ⟨some "/x", some "$", true, false, ""⟩

/-- Request carrying an empty (but alphabet-clean) d and a well-formed su. -/
def reqA : AuthRequest := ⟨some "/next", some "", true, false, ""⟩

/-- C1, counterexample.  The claim says the base64-encoded IV and
ciphertext contain no padding characters.  On a successful concrete
handoff the IV parameter i is "AAAAAAAAAAAAAAAAAAAAAA==", which ends in
two padding characters: Python b64encode(_, b"-_") substitutes the
alphabet but keeps '=' padding, and a 16-byte IV always pads by two. -/
theorem claim_C1_counterexample :
    (communityauth Eid site0 req1 user0 [] [] [] 0 rng0).1 =
      AuthResult.redirect
        "https://ex.org/auth?i=AAAAAAAAAAAAAAAAAAAAAA==&d=dD0wJnU9YWxpY2UmZj1BbB1eVQAZACACB0UAGwcYdVx4Jntva2cGcWJ4IDsnOFV8"
      ∧ b64encodeAlt (rngBytes rng0 16) = "AAAAAAAAAAAAAAAAAAAAAA=="
      ∧ "AAAAAAAAAAAAAAAAAAAAAA==".toList.count '=' = 2 := by
  refine ⟨by decide, by decide, by decide⟩

/-- C4, counterexample.  The claim says a d payload containing a
character outside the URL-safe-base64 alphabet is silently dropped.
The code instead validates d against quote_plus(d, '=$'), whose safe
set also has '.', '~' and '$': the payload "$" (outside the
URL-safe-base64 alphabet) is kept, forwarded in the record as d=%24,
and not dropped. -/
theorem claim_C4_counterexample :
    processD (some "$") = some "$"
      ∧ ("$".toList.all (fun c => c.isAlpha || c.isDigit || c = '-' || c = '_' || c = '=')) = false
      ∧ (communityauth Eid site0 req4 user0 [] [] [] 0 rng0).1 =
          AuthResult.redirect (successRedirectUrl Eid site0 rng0
            "t=0&u=alice&f=Alice&l=Ann&e=a%40ex.org&se=&d=%24") := by
  refine ⟨by decide, by decide, by decide⟩

/-- C10, counterexample.  The claim says that whenever a well-formed d
and a well-formed su are both present, d wins and su is ignored.  An
empty d is well-formed (it passes the alphabet check), but Python
truthiness makes the code fall through to su: the serialized record
carries su=%2Fnext and no d field. -/
theorem claim_C10_counterexample :
    processD (some "") = some ""
      ∧ processSu (some "/next") = some "/next"
      ∧ (communityauth Eid site0 reqA user0 [] [] [] 0 rng0).1 =
          AuthResult.redirect (successRedirectUrl Eid site0 rng0
            "t=0&u=alice&f=Alice&l=Ann&e=a%40ex.org&se=&su=%2Fnext") := by
  refine ⟨by decide, by decide, by decide⟩

/-! ## Flow lemmas for the communityauth view. -/

/-- Inversion: the only branch of communityauth producing a redirect to
the partner is the success branch, and it fixes the URL, the table
update and the random-stream consumption. -/
theorem communityauth_redirect_inv (E : List Nat → List Nat → List Nat)
    (site : AuthSite) (req : AuthRequest) (user : AuthUser)
    (ses : List SecondaryEmailRec) (consents : List ConsentRec)
    (lastlogins : List LLRec) (now : Int) (rng : RngState) (url : String)
    (h : (communityauth E site req user ses consents lastlogins now rng).1 =
      AuthResult.redirect url) :
    url = successRedirectUrl E site rng
        (serializeAuthRecord now user ses (processD req.d) (processSu req.su))
      ∧ (communityauth E site req user ses consents lastlogins now rng).2.1 =
          upsertLastLogin lastlogins user.uid site.sid now
      ∧ (communityauth E site req user ses consents lastlogins now rng).2.2.pos =
          rng.pos + 16 := by
  unfold communityauth at h ⊢
  split_ifs at h ⊢
  all_goals simp_all [rngRead]

/-- C6.  An authenticated user with an empty first name, last name or
primary email is rejected with the terminal noinfo page: the login
count table is unchanged (no login-count record written) and no
redirect to the partner is issued. -/
theorem claim_C6_noinfo_rejected (E : List Nat → List Nat → List Nat)
    (site : AuthSite) (req : AuthRequest) (user : AuthUser)
    (ses : List SecondaryEmailRec) (consents : List ConsentRec)
    (lastlogins : List LLRec) (now : Int) (rng : RngState)
    (hauth : req.authenticated = true)
    (hinfo : user.first_name = "" ∨ user.last_name = "" ∨ user.email = "") :
    communityauth E site req user ses consents lastlogins now rng =
      (AuthResult.noinfo, lastlogins, rng) := by
  have hb : (user.first_name = "" || user.last_name = "" || user.email = "") = true := by
    rcases hinfo with h | h | h <;> simp [h]
  simp [communityauth, hauth, hb]

/-- C6 witness: a concrete user with an empty first name gets the
noinfo page and the login-count table is untouched. -/
theorem claim_C6_witness :
    communityauth Eid site0 req1 userNoInfo [] [] [] 0 rng0 =
      (AuthResult.noinfo, [], rng0) :=
  claim_C6_noinfo_rejected Eid site0 req1 userNoInfo [] [] [] 0 rng0 rfl (Or.inl rfl)

/-- C3.  With a positive cooloff period, an authenticated user (with
complete identity data) whose account age now - date_joined is below
cooloff_hours hours is refused with the distinct cooloff outcome — not
an error page and not a redirect — and no login-count row is written;
moreover the whole view never reads last_login: its outcome is
invariant under changing the last_login field, so the cooloff
comparison depends only on the account creation time. -/
theorem claim_C3_cooloff (E : List Nat → List Nat → List Nat)
    (site : AuthSite) (req : AuthRequest) (user : AuthUser)
    (ses : List SecondaryEmailRec) (consents : List ConsentRec)
    (lastlogins : List LLRec) (now : Int) (rng : RngState)
    (hauth : req.authenticated = true)
    (hf : user.first_name ≠ "") (hl : user.last_name ≠ "") (he : user.email ≠ "")
    (hcool : 0 < site.cooloff_hours)
    (hage : now - user.date_joined < 3600 * (site.cooloff_hours : Int)) :
    communityauth E site req user ses consents lastlogins now rng =
        (AuthResult.cooloff site.name, lastlogins, rng)
      ∧ ∀ (E' : List Nat → List Nat → List Nat) (site' : AuthSite)
          (req' : AuthRequest) (uid : Nat) (un fn ln em : String)
          (dj ll1 ll2 : Int) (ses' : List SecondaryEmailRec)
          (consents' : List ConsentRec) (lastlogins' : List LLRec)
          (now' : Int) (rng' : RngState),
          communityauth E' site' req' ⟨uid, un, fn, ln, em, dj, ll1⟩
              ses' consents' lastlogins' now' rng' =
            communityauth E' site' req' ⟨uid, un, fn, ln, em, dj, ll2⟩
              ses' consents' lastlogins' now' rng' := by
  constructor
  · simp [communityauth, hauth, hf, hl, he, hcool, hage]
  · intro E' site' req' uid un fn ln em dj ll1 ll2 ses' consents' lastlogins' now' rng'
    rfl

/-- C3 witness: a concrete user created at time 0 logging in to the
48-hour-cooloff site at time 1000 seconds is shown the cooloff page. -/
theorem claim_C3_witness :
    communityauth Eid site48 req1 user0 [] [] [] 1000 rng0 =
        (AuthResult.cooloff site48.name, [], rng0)
      ∧ ∀ (E' : List Nat → List Nat → List Nat) (site' : AuthSite)
          (req' : AuthRequest) (uid : Nat) (un fn ln em : String)
          (dj ll1 ll2 : Int) (ses' : List SecondaryEmailRec)
          (consents' : List ConsentRec) (lastlogins' : List LLRec)
          (now' : Int) (rng' : RngState),
          communityauth E' site' req' ⟨uid, un, fn, ln, em, dj, ll1⟩
              ses' consents' lastlogins' now' rng' =
            communityauth E' site' req' ⟨uid, un, fn, ln, em, dj, ll2⟩
              ses' consents' lastlogins' now' rng' :=
  claim_C3_cooloff Eid site48 req1 user0 [] [] [] 1000 rng0 rfl
    (by decide) (by decide) (by decide) (by decide) (by decide)

/-! ## The login-count upsert (C7). -/

/-- The row of the login-count table for one (user, site) pair. -/
def findLL (tbl : List LLRec) (uid sid : Nat) : Option LLRec :=
  tbl.find? (fun r => r.uid = uid && r.sid = sid)

/-- logincount of an optional row, 0 when absent. -/
def llCount : Option LLRec → Nat
  | none => 0
  | some r => r.logincount


/-- find? commutes with a map that preserves the predicate. -/
theorem find?_map_pres {α : Type} (p : α → Bool) (f : α → α)
    (hf : ∀ x, p (f x) = p x) (l : List α) :
    List.find? p (l.map f) = (List.find? p l).map f := by
  induction l with
  | nil => rfl
  | cons x t ih =>
      by_cases hx : p x = true
      · rw [List.map_cons, List.find?_cons_of_pos _ (by rw [hf]; exact hx),
          List.find?_cons_of_pos _ hx, Option.map_some']
      · rw [List.map_cons, List.find?_cons_of_neg _ (by rw [hf]; exact hx),
          List.find?_cons_of_neg _ hx]
        exact ih

/-- Conflict case of the upsert: the existing row for the pair gets its
count incremented by exactly one and its timestamp refreshed. -/
theorem upsert_found (tbl : List LLRec) (uid sid : Nat) (now : Int) (r : LLRec)
    (h : findLL tbl uid sid = some r) :
    findLL (upsertLastLogin tbl uid sid now) uid sid =
      some { r with lastlogin := now, logincount := r.logincount + 1 } := by
  unfold findLL at h
  have hp := List.find?_some h
  have hany : (tbl.any (fun x => x.uid = uid && x.sid = sid)) = true :=
    List.any_eq_true.mpr ⟨r, List.mem_of_find?_eq_some h, hp⟩
  unfold upsertLastLogin findLL
  rw [if_pos hany, find?_map_pres _ _ ?hf, h, Option.map_some', if_pos hp]
  case hf =>
    intro x
    by_cases hx : (decide (x.uid = uid) && decide (x.sid = sid)) = true
    · rw [if_pos hx]
    · rw [if_neg hx]

/-- Insert case of the upsert: with no row for the pair, a fresh row
with count 1 and the current timestamp is appended. -/
theorem upsert_missing (tbl : List LLRec) (uid sid : Nat) (now : Int)
    (h : findLL tbl uid sid = none) :
    upsertLastLogin tbl uid sid now = tbl ++ [⟨uid, sid, now, 1⟩] := by
  have hany : (tbl.any (fun x => x.uid = uid && x.sid = sid)) = false := by
    rw [Bool.eq_false_iff]
    intro hc
    obtain ⟨x, hx, hpx⟩ := List.any_eq_true.mp hc
    exact (List.find?_eq_none.mp h x hx) hpx
  unfold upsertLastLogin
  rw [if_neg (by simp [hany])]

/-- Rows of other (user, site) pairs are untouched by the upsert. -/
theorem upsert_other (tbl : List LLRec) (uid sid uid' sid' : Nat) (now : Int)
    (hne : ¬(uid' = uid ∧ sid' = sid)) :
    findLL (upsertLastLogin tbl uid sid now) uid' sid' = findLL tbl uid' sid' := by
  unfold upsertLastLogin findLL
  split_ifs with hany
  · rw [find?_map_pres _ _ ?hf]
    · cases hf : tbl.find? (fun x => x.uid = uid' && x.sid = sid') with
      | none => rfl
      | some x =>
          have hp := List.find?_some hf
          rw [Option.map_some', if_neg]
          intro hc
          simp only [Bool.and_eq_true, decide_eq_true_eq] at hc hp
          exact hne ⟨hp.1 ▸ hc.1.symm ▸ rfl, hp.2 ▸ hc.2.symm ▸ rfl⟩
    case hf =>
      intro x
      by_cases hx : (decide (x.uid = uid) && decide (x.sid = sid)) = true
      · rw [if_pos hx]
      · rw [if_neg hx]
  · rw [List.find?_append]
    have hs : List.find? (fun x : LLRec => x.uid = uid' && x.sid = sid')
        [⟨uid, sid, now, 1⟩] = none := by
      rw [List.find?_cons_of_neg _ ?hne1, List.find?]
      case hne1 =>
        simp only [Bool.and_eq_true, decide_eq_true_eq, not_and]
        intro h1 h2
        exact hne ⟨h1.symm, h2.symm⟩
    rw [hs, Option.or_none]

/-- The upsert never decreases the stored login count of the pair. -/
theorem upsert_monotone (tbl : List LLRec) (uid sid : Nat) (now : Int) :
    llCount (findLL tbl uid sid) ≤
      llCount (findLL (upsertLastLogin tbl uid sid now) uid sid) := by
  cases h : findLL tbl uid sid with
  | none => exact Nat.zero_le _
  | some r =>
      rw [upsert_found tbl uid sid now r h]
      exact Nat.le_succ _

/-- C7.  The login-count upsert of a successful handoff: when no row
exists for the (user, site) pair a row with count 1 and the current
timestamp is inserted; when a row exists its count is incremented by
exactly 1 and its timestamp refreshed; rows of other pairs are
untouched; the pair's count never decreases; and on every successful
handoff the new table is exactly this upsert applied once (the source
performs it as a single INSERT ... ON CONFLICT DO UPDATE statement). -/
theorem claim_C7_lastlogin_upsert :
    (∀ (tbl : List LLRec) (uid sid : Nat) (now : Int),
        findLL tbl uid sid = none →
        upsertLastLogin tbl uid sid now = tbl ++ [⟨uid, sid, now, 1⟩]) ∧
    (∀ (tbl : List LLRec) (uid sid : Nat) (now : Int) (r : LLRec),
        findLL tbl uid sid = some r →
        findLL (upsertLastLogin tbl uid sid now) uid sid =
          some { r with lastlogin := now, logincount := r.logincount + 1 }) ∧
    (∀ (tbl : List LLRec) (uid sid uid' sid' : Nat) (now : Int),
        ¬(uid' = uid ∧ sid' = sid) →
        findLL (upsertLastLogin tbl uid sid now) uid' sid' = findLL tbl uid' sid') ∧
    (∀ (tbl : List LLRec) (uid sid : Nat) (now : Int),
        llCount (findLL tbl uid sid) ≤
          llCount (findLL (upsertLastLogin tbl uid sid now) uid sid)) ∧
    (∀ (E : List Nat → List Nat → List Nat) (site : AuthSite) (req : AuthRequest)
        (user : AuthUser) (ses : List SecondaryEmailRec) (consents : List ConsentRec)
        (lastlogins : List LLRec) (now : Int) (rng : RngState) (url : String),
        (communityauth E site req user ses consents lastlogins now rng).1 =
          AuthResult.redirect url →
        (communityauth E site req user ses consents lastlogins now rng).2.1 =
          upsertLastLogin lastlogins user.uid site.sid now) :=
  ⟨upsert_missing, fun tbl uid sid now r h => upsert_found tbl uid sid now r h,
   fun tbl uid sid uid' sid' now h => upsert_other tbl uid sid uid' sid' now h,
   upsert_monotone,
   fun E site req user ses consents lastlogins now rng url h =>
     (communityauth_redirect_inv E site req user ses consents lastlogins now rng url h).2.1⟩

/-! ## Consent (C5). -/

/-- Number of consent records for one (user, organisation) pair. -/
def countConsent (l : List ConsentRec) (uid oid : Nat) : Nat :=
  (l.filter (fun c => c.uid = uid && c.oid = oid)).length

/-- Repeated consent grants (get_or_create at successive times). -/
def grantRepeatedly (l : List ConsentRec) (uid oid : Nat) (ts : List Int) :
    List ConsentRec :=
  ts.foldl (fun acc t => consent_get_or_create acc uid oid t) l

/-- A grant on an already consenting pair does nothing. -/
theorem gc_stable (l : List ConsentRec) (uid oid : Nat) (t : Int)
    (h : consentExists l uid oid = true) :
    consent_get_or_create l uid oid t = l := by
  simp [consent_get_or_create, h]

/-- After a grant, a consent record for the pair exists. -/
theorem consentExists_gc (l : List ConsentRec) (uid oid : Nat) (t : Int) :
    consentExists (consent_get_or_create l uid oid t) uid oid = true := by
  by_cases h : consentExists l uid oid = true
  · rw [gc_stable l uid oid t h]; exact h
  · simp only [consent_get_or_create, h, if_false, Bool.not_eq_true] at *
    simp [consentExists, List.any_append, h]

/-- Repeated grants on an already consenting pair do nothing. -/
theorem grant_fold_stable (l : List ConsentRec) (uid oid : Nat) (ts : List Int)
    (h : consentExists l uid oid = true) :
    grantRepeatedly l uid oid ts = l := by
  induction ts generalizing l with
  | nil => rfl
  | cons t ts ih =>
      unfold grantRepeatedly at *
      rw [List.foldl_cons, gc_stable l uid oid t h]
      exact ih l h

/-- With no record for the pair yet, the pair has no matching entries
in the any-check either. -/
theorem consentExists_of_count0 (l : List ConsentRec) (uid oid : Nat)
    (h : countConsent l uid oid = 0) :
    consentExists l uid oid = false := by
  rw [Bool.eq_false_iff]
  intro hc
  obtain ⟨x, hx, hpx⟩ := List.any_eq_true.mp hc
  have hmem : x ∈ l.filter (fun c => c.uid = uid && c.oid = oid) :=
    List.mem_filter.mpr ⟨hx, hpx⟩
  unfold countConsent at h
  rw [List.length_eq_zero] at h
  rw [h] at hmem
  exact absurd hmem (List.not_mem_nil x)

/-- C5.  If the partner organisation requires consent and no consent
record exists for the (user, organisation) pair, an authenticated
eligible user is redirected to the consent-capture step instead of
completing (no login-count written); and granting is idempotent: a
second grant is a no-op, and starting from no record, any non-empty
sequence of repeated grants leaves exactly one record for the pair,
namely the one of the first grant, unaltered. -/
theorem claim_C5_consent (E : List Nat → List Nat → List Nat)
    (site : AuthSite) (req : AuthRequest) (user : AuthUser)
    (ses : List SecondaryEmailRec) (consents : List ConsentRec)
    (lastlogins : List LLRec) (now : Int) (rng : RngState)
    (hauth : req.authenticated = true)
    (hf : user.first_name ≠ "") (hl : user.last_name ≠ "") (he : user.email ≠ "")
    (hcool : ¬(0 < site.cooloff_hours ∧
      now - user.date_joined < 3600 * (site.cooloff_hours : Int)))
    (hreq : site.org.require_consent = true)
    (hnocons : consentExists consents user.uid site.org.oid = false) :
    communityauth E site req user ses consents lastlogins now rng =
        (AuthResult.consentRedirect ("/account/auth/" ++ toString site.sid ++
          "/consent/?" ++ urlencodeDict [("next", "/account/auth/" ++
            toString site.sid ++ "/" ++
            urldataOf (processD req.d) (processSu req.su))]), lastlogins, rng)
      ∧ (∀ (l : List ConsentRec) (uid oid : Nat) (t t' : Int),
          consent_get_or_create (consent_get_or_create l uid oid t) uid oid t' =
            consent_get_or_create l uid oid t)
      ∧ (∀ (l : List ConsentRec) (uid oid : Nat) (t : Int) (ts : List Int),
          countConsent l uid oid = 0 →
          grantRepeatedly l uid oid (t :: ts) = l ++ [⟨uid, oid, t⟩]
            ∧ countConsent (grantRepeatedly l uid oid (t :: ts)) uid oid = 1) := by
  refine ⟨?_, ?_, ?_⟩
  · have hcb : (site.cooloff_hours > 0 &&
        decide (now - user.date_joined < 3600 * (site.cooloff_hours : Int))) = false := by
      rw [Bool.eq_false_iff]
      intro hc
      simp only [Bool.and_eq_true, decide_eq_true_eq, gt_iff_lt] at hc
      exact hcool hc
    simp [communityauth, hauth, hf, hl, he, hcb, hreq, hnocons]
  · intro l uid oid t t'
    exact gc_stable _ uid oid t' (consentExists_gc l uid oid t)
  · intro l uid oid t ts h0
    have hex : consentExists l uid oid = false := consentExists_of_count0 l uid oid h0
    have hstep : consent_get_or_create l uid oid t = l ++ [⟨uid, oid, t⟩] := by
      simp [consent_get_or_create, hex]
    have hfold : grantRepeatedly l uid oid (t :: ts) = l ++ [⟨uid, oid, t⟩] := by
      unfold grantRepeatedly
      rw [List.foldl_cons, hstep]
      have : consentExists (l ++ [⟨uid, oid, t⟩]) uid oid = true := by
        rw [hstep] at *
        have := consentExists_gc l uid oid t
        rw [consent_get_or_create, hex] at this
        simpa using this
      exact grant_fold_stable _ uid oid ts this
    refine ⟨hfold, ?_⟩
    rw [hfold]
    unfold countConsent at *
    rw [List.filter_append, List.length_append, h0]
    simp

/-! ## Record serialization (C2). -/

/-- charListLt agrees with the lexicographic strict order on
character lists. -/
theorem charListLt_iff_lt : ∀ a b : List Char, charListLt a b = true ↔ a < b := by
  intro a
  induction a with
  | nil =>
      intro b
      cases b with
      | nil => exact ⟨fun h => (nomatch h), fun h => nomatch h⟩
      | cons y ys => exact ⟨fun _ => List.Lex.nil, fun _ => rfl⟩
  | cons x xs ih =>
      intro b
      cases b with
      | nil => exact ⟨fun h => (nomatch h), fun h => nomatch h⟩
      | cons y ys =>
          by_cases h1 : x < y
          · constructor
            · intro _; exact List.Lex.rel h1
            · intro _
              show charListLt (x :: xs) (y :: ys) = true
              unfold charListLt
              rw [if_pos h1]
          · by_cases h2 : y < x
            · constructor
              · intro h
                exfalso
                unfold charListLt at h
                rw [if_neg h1, if_pos h2] at h
                exact Bool.false_ne_true h
              · intro h
                exfalso
                cases h with
                | rel h' => exact h1 h'
                | cons h' => exact lt_irrefl _ h2
            · have hxy : x = y := le_antisymm (le_of_not_lt h2) (le_of_not_lt h1)
              subst hxy
              constructor
              · intro h
                apply List.Lex.cons
                apply (ih ys).mp
                unfold charListLt at h
                rwa [if_neg h1, if_neg h2] at h
              · intro h
                unfold charListLt
                rw [if_neg h1, if_neg h2]
                cases h with
                | rel h' => exact absurd h' h1
                | cons h' => exact (ih ys).mpr h'

/-- strLt agrees with the string order. -/
theorem strLt_iff (a b : String) : strLt a b = true ↔ a < b := by
  rw [String.lt_iff_toList_lt]
  exact charListLt_iff_lt a.toList b.toList

/-- strLt = false is the opposite weak inequality. -/
theorem strLt_false_iff (a b : String) : strLt b a = false ↔ a ≤ b := by
  rw [← not_lt, ← strLt_iff b a]
  simp

/-- Inserting into an email-sorted list permutes consing. -/
theorem insertByEmail_perm (x : SecondaryEmailRec) (l : List SecondaryEmailRec) :
    (insertByEmail x l).Perm (x :: l) := by
  induction l with
  | nil => exact List.Perm.refl _
  | cons y ys ih =>
      unfold insertByEmail
      split_ifs
      · exact ((ih.cons y).trans (List.Perm.swap x y ys))
      · exact List.Perm.refl _

/-- Sorting by email is a permutation. -/
theorem sortByEmail_perm (l : List SecondaryEmailRec) :
    (sortByEmail l).Perm l := by
  induction l with
  | nil => exact List.Perm.refl _
  | cons x t ih =>
      unfold sortByEmail at *
      exact (insertByEmail_perm x _).trans (ih.cons x)

/-- Inserting into an email-sorted list keeps it email-sorted. -/
theorem insertByEmail_sorted (x : SecondaryEmailRec) (l : List SecondaryEmailRec)
    (h : l.Pairwise (fun a b => a.email ≤ b.email)) :
    (insertByEmail x l).Pairwise (fun a b => a.email ≤ b.email) := by
  induction l with
  | nil => simp [insertByEmail]
  | cons y ys ih =>
      rw [List.pairwise_cons] at h
      obtain ⟨hy, hys⟩ := h
      unfold insertByEmail
      split_ifs with hlt
      · rw [List.pairwise_cons]
        refine ⟨?_, ih hys⟩
        intro z hz
        rcases List.mem_cons.mp (((insertByEmail_perm x ys).mem_iff).mp hz) with hzx | hzys
        · exact hzx ▸ le_of_lt ((strLt_iff y.email x.email).mp hlt)
        · exact hy z hzys
      · rw [List.pairwise_cons]
        have hxy : x.email ≤ y.email :=
          (strLt_false_iff x.email y.email).mp (Bool.eq_false_iff.mpr hlt)
        refine ⟨?_, List.pairwise_cons.mpr ⟨hy, hys⟩⟩
        intro z hz
        rcases List.mem_cons.mp hz with hzy | hzys
        · exact hzy ▸ hxy
        · exact le_trans hxy (hy z hzys)

/-- sortByEmail returns an email-sorted list. -/
theorem sortByEmail_sorted (l : List SecondaryEmailRec) :
    (sortByEmail l).Pairwise (fun a b => a.email ≤ b.email) := by
  induction l with
  | nil => exact List.Pairwise.nil
  | cons x t ih => exact insertByEmail_sorted x _ ih

/-- The serialized record, written out field by field. -/
theorem serializeAuthRecord_shape (now : Int) (user : AuthUser)
    (ses : List SecondaryEmailRec) (d su : Option String) :
    serializeAuthRecord now user ses d su =
      "t=" ++ toString now
        ++ "&" ++ ("u" ++ "=" ++ quote_plus [] user.username)
        ++ "&" ++ ("f" ++ "=" ++ quote_plus [] user.first_name)
        ++ "&" ++ ("l" ++ "=" ++ quote_plus [] user.last_name)
        ++ "&" ++ ("e" ++ "=" ++ quote_plus [] user.email)
        ++ "&" ++ ("se" ++ "=" ++ quote_plus [] (secondaryEmailsJoined ses))
        ++ (if optTruthy d then "&" ++ ("d" ++ "=" ++ quote_plus [] (d.getD ""))
            else if optTruthy su then "&" ++ ("su" ++ "=" ++ quote_plus [] (su.getD ""))
            else "") := by
  by_cases hd : optTruthy d = true
  · simp [-String.reduceAppend, serializeAuthRecord, urlencodeDict, authInfoFields, hd,
      String.intercalate, String.intercalate.go, String.append_assoc]
  · by_cases hsu : optTruthy su = true
    · simp [-String.reduceAppend, serializeAuthRecord, urlencodeDict, authInfoFields, hd, hsu,
        String.intercalate, String.intercalate.go, String.append_assoc]
    · simp [-String.reduceAppend, serializeAuthRecord, urlencodeDict, authInfoFields, hd, hsu,
        String.intercalate, String.intercalate.go, String.append_assoc]

/-- C2.  On every successful handoff the encrypted plaintext is the
URL-encoded record whose first field is the timestamp, followed by the
username, first name, last name, primary email, the comma-joined
confirmed secondary emails sorted by email address, and the processed
opaque payload when one was supplied; the email list used is an
email-sorted permutation of the user's confirmed secondary emails. -/
theorem claim_C2_record_serialization (E : List Nat → List Nat → List Nat)
    (site : AuthSite) (req : AuthRequest) (user : AuthUser)
    (ses : List SecondaryEmailRec) (consents : List ConsentRec)
    (lastlogins : List LLRec) (now : Int) (rng : RngState) (url : String)
    (h : (communityauth E site req user ses consents lastlogins now rng).1 =
      AuthResult.redirect url) :
    url = successRedirectUrl E site rng
        (serializeAuthRecord now user ses (processD req.d) (processSu req.su))
      ∧ serializeAuthRecord now user ses (processD req.d) (processSu req.su) =
          "t=" ++ toString now
            ++ "&" ++ ("u" ++ "=" ++ quote_plus [] user.username)
            ++ "&" ++ ("f" ++ "=" ++ quote_plus [] user.first_name)
            ++ "&" ++ ("l" ++ "=" ++ quote_plus [] user.last_name)
            ++ "&" ++ ("e" ++ "=" ++ quote_plus [] user.email)
            ++ "&" ++ ("se" ++ "=" ++ quote_plus [] (secondaryEmailsJoined ses))
            ++ (if optTruthy (processD req.d) then
                  "&" ++ ("d" ++ "=" ++ quote_plus [] ((processD req.d).getD ""))
                else if optTruthy (processSu req.su) then
                  "&" ++ ("su" ++ "=" ++ quote_plus [] ((processSu req.su).getD ""))
                else "")
      ∧ secondaryEmailsJoined ses = String.intercalate ","
          ((sortByEmail (ses.filter (fun a => a.confirmed))).map (fun a => a.email))
      ∧ ((sortByEmail (ses.filter (fun a => a.confirmed))).map
          (fun a => a.email)).Pairwise (fun a b => a ≤ b)
      ∧ (sortByEmail (ses.filter (fun a => a.confirmed))).Perm
          (ses.filter (fun a => a.confirmed)) :=
  ⟨(communityauth_redirect_inv E site req user ses consents lastlogins now rng url h).1,
   serializeAuthRecord_shape now user ses (processD req.d) (processSu req.su),
   rfl,
   List.pairwise_map.mpr (sortByEmail_sorted _),
   sortByEmail_perm _⟩

/-- Fixture: one unconfirmed and two confirmed secondary emails, with
the confirmed ones supplied out of order. -/
def sesL : List SecondaryEmailRec := [⟨"z@x.org", true⟩, ⟨"a@x.org", true⟩, ⟨"m@x.org", false⟩]

/-- C2 witness: on a concrete successful handoff the redirect URL is
built from the serialized record, and the two confirmed secondary
emails come out sorted and comma-joined. -/
theorem claim_C2_witness :
    "https://ex.org/auth?i=AAAAAAAAAAAAAAAAAAAAAA==&d=dD0wJnU9YWxpY2UmZj1BbB1eVQAZACACB0UAGwcYdVx4Jntva2cGcWJ4YT4zKA1yF1QcSlkkfFRWSBkQXFpqUg==" =
      successRedirectUrl Eid site0 rng0
        (serializeAuthRecord 0 user0 sesL (processD req1.d) (processSu req1.su))
      ∧ secondaryEmailsJoined sesL = "a@x.org,z@x.org" :=
  ⟨(claim_C2_record_serialization Eid site0 req1 user0 sesL [] [] 0 rng0 _
      (by decide)).1,
   by decide⟩

/-! ## Base64 output alphabet (C1). -/

/-- URL-safe base64 output characters: the substituted alphabet
A-Z a-z 0-9 - _ plus the padding character. -/
def b64UrlOrPad (c : Char) : Bool :=
  c.isAlpha || c.isDigit || c = '-' || c = '_' || c = '='

/-- getD stays inside a property holding for the list and the default. -/
theorem all_getD (p : Char → Bool) (d : Char) (hd : p d = true) :
    ∀ (l : List Char) (n : Nat), l.all p = true → p (l.getD n d) = true
  | [], n, _ => hd
  | c :: t, 0, h => by
      rw [List.all_cons, Bool.and_eq_true] at h
      exact h.1
  | c :: t, n + 1, h => by
      rw [List.all_cons, Bool.and_eq_true] at h
      exact all_getD p d hd t n h.2

/-- Every character the URL-safe table produces is in the URL-safe set. -/
theorem b64char_urlOrPad (n : Nat) : b64UrlOrPad (b64char '-' '_' n) = true :=
  all_getD b64UrlOrPad 'A' (by decide) (b64table '-' '_') n (by decide)

theorem b64UrlOrPad_pad : b64UrlOrPad '=' = true := by decide

/-- Every character of an URL-safe base64 encoding is in the URL-safe
set (alphabet plus padding). -/
theorem b64encodeRaw_chars : ∀ bs : List Nat,
    ((b64encodeRaw '-' '_' bs).all b64UrlOrPad) = true
  | [] => rfl
  | [a] => by
      simp [b64encodeRaw, b64char_urlOrPad, b64UrlOrPad_pad]
  | [a, b] => by
      simp [b64encodeRaw, b64char_urlOrPad, b64UrlOrPad_pad]
  | a :: b :: c :: rest => by
      simp only [b64encodeRaw, List.all_cons, b64char_urlOrPad, Bool.true_and]
      exact b64encodeRaw_chars rest

/-- String-level version of b64encodeRaw_chars. -/
theorem b64encodeAlt_chars (bs : List Nat) :
    (b64encodeAlt bs).toList.all b64UrlOrPad = true :=
  b64encodeRaw_chars bs

/-- C1, amended.  On every successful handoff the redirect URL is the
partner redirect URL with query parameters i (base64 IV) and d (base64
ciphertext) appended; both encodings use the URL-safe alphabet
substitution, every character being in A-Z a-z 0-9 - _ or the padding
character '=' (padding IS emitted, contrary to the original claim);
server-to-server responses carry the same two encodings joined by an
ampersand. -/
theorem claim_C1_amended (E : List Nat → List Nat → List Nat)
    (site : AuthSite) (req : AuthRequest) (user : AuthUser)
    (ses : List SecondaryEmailRec) (consents : List ConsentRec)
    (lastlogins : List LLRec) (now : Int) (rng : RngState) (url : String)
    (h : (communityauth E site req user ses consents lastlogins now rng).1 =
      AuthResult.redirect url) :
    url = site.redirecturl ++ "?i=" ++ b64encodeAlt (rngBytes rng 16) ++ "&d=" ++
        b64encodeAlt (cbcCipher E (b64decode site.cryptkey) (rngBytes rng 16)
          (serializeAuthRecord now user ses (processD req.d) (processSu req.su)))
      ∧ (∀ bs : List Nat, (b64encodeAlt bs).toList.all b64UrlOrPad = true)
      ∧ (∀ (F : List Nat → List Nat → List Nat) (site' : AuthSite) (s' : String)
          (rng' : RngState),
          (encrypt_site_response F site' s' rng').1 =
            b64encodeAlt (rngBytes rng' 16) ++ "&" ++
              b64encodeAlt (cbcCipher F (b64decode site'.cryptkey) (rngBytes rng' 16) s')) :=
  ⟨(communityauth_redirect_inv E site req user ses consents lastlogins now rng url h).1,
   b64encodeAlt_chars,
   fun _ _ _ _ => rfl⟩

/-- C1 amended, witness: the concrete successful handoff of the
counterexample indeed decomposes into redirect URL plus the two
base64-encoded query parameters. -/
theorem claim_C1_amended_witness :
    "https://ex.org/auth?i=AAAAAAAAAAAAAAAAAAAAAA==&d=dD0wJnU9YWxpY2UmZj1BbB1eVQAZACACB0UAGwcYdVx4Jntva2cGcWJ4IDsnOFV8" =
      site0.redirecturl ++ "?i=" ++ b64encodeAlt (rngBytes rng0 16) ++ "&d=" ++
        b64encodeAlt (cbcCipher Eid (b64decode site0.cryptkey) (rngBytes rng0 16)
          (serializeAuthRecord 0 user0 [] (processD req1.d) (processSu req1.su))) :=
  (claim_C1_amended Eid site0 req1 user0 [] [] [] 0 rng0 _ (by decide)).1

/-! ## Malformed payloads (C4) and payload precedence (C10). -/

/-- C4, amended.  A d payload failing the code's alphabet check (it
differs from its quote_plus(d, '=$') image, i.e. it has a character
outside letters, digits, _ . - ~ = $) and a legacy su payload not
starting with '/' are each silently dropped whole; with every supplied
payload malformed in this sense, an authenticated eligible user still
completes the handoff, with a record carrying no payload field. -/
theorem claim_C4_amended (E : List Nat → List Nat → List Nat)
    (site : AuthSite) (req : AuthRequest) (user : AuthUser)
    (ses : List SecondaryEmailRec) (consents : List ConsentRec)
    (lastlogins : List LLRec) (now : Int) (rng : RngState)
    (hauth : req.authenticated = true)
    (hf : user.first_name ≠ "") (hl : user.last_name ≠ "") (he : user.email ≠ "")
    (hcool : ¬(0 < site.cooloff_hours ∧
      now - user.date_joined < 3600 * (site.cooloff_hours : Int)))
    (hcons : site.org.require_consent = false ∨
      consentExists consents user.uid site.org.oid = true)
    (hd : ∀ dstr, req.d = some dstr → dstr ≠ quote_plus ['=', '$'] dstr)
    (hsu : ∀ sustr, req.su = some sustr → strStartsWith sustr "/" = false) :
    communityauth E site req user ses consents lastlogins now rng =
        (AuthResult.redirect (successRedirectUrl E site rng
          (serializeAuthRecord now user ses none none)),
         upsertLastLogin lastlogins user.uid site.sid now, (rngRead rng 16).2)
      ∧ urldataOf (processD req.d) (processSu req.su) = "" := by
  have hd' : processD req.d = none := by
    cases hreq : req.d with
    | none => rfl
    | some dstr => simp [processD, hd dstr hreq]
  have hsu' : processSu req.su = none := by
    cases hreq : req.su with
    | none => rfl
    | some sustr => simp [processSu, hsu sustr hreq]
  have hcb : (site.cooloff_hours > 0 &&
      decide (now - user.date_joined < 3600 * (site.cooloff_hours : Int))) = false := by
    rw [Bool.eq_false_iff]
    intro hc
    simp only [Bool.and_eq_true, decide_eq_true_eq, gt_iff_lt] at hc
    exact hcool hc
  have hcc : (site.org.require_consent &&
      !consentExists consents user.uid site.org.oid) = false := by
    rcases hcons with h | h <;> simp [h]
  constructor
  · simp [communityauth, hauth, hf, hl, he, hcb, hcc, hd', hsu', rngRead]
  · simp [urldataOf, hd', hsu', optTruthy]

/-- Request whose d has a space (outside the safe alphabet) and whose
su does not start with a slash: both malformed. -/
def reqBad : AuthRequest := ⟨some "x", some "a b", true, false, ""⟩

/-- C4 amended, witness: with both payloads malformed the concrete
handoff still succeeds and carries no payload field. -/
theorem claim_C4_amended_witness :
    communityauth Eid site0 reqBad user0 [] [] [] 0 rng0 =
        (AuthResult.redirect (successRedirectUrl Eid site0 rng0
          (serializeAuthRecord 0 user0 [] none none)),
         upsertLastLogin [] user0.uid site0.sid 0, (rngRead rng0 16).2)
      ∧ urldataOf (processD reqBad.d) (processSu reqBad.su) = "" :=
  claim_C4_amended Eid site0 reqBad user0 [] [] [] 0 rng0 rfl
    (by decide) (by decide) (by decide) (by decide) (Or.inl rfl)
    (fun dstr hd => by injection hd with h; subst h; decide)
    (fun sustr hs => by injection hs with h; subst h; decide)

/-- C10, amended.  When a NON-EMPTY well-formed d and a well-formed su
are both supplied, d takes precedence: the return path is ?d=... and
the serialized record carries the d payload and no su field (the
record is the same as if su had been absent). -/
theorem claim_C10_amended (E : List Nat → List Nat → List Nat)
    (site : AuthSite) (req : AuthRequest) (user : AuthUser)
    (ses : List SecondaryEmailRec) (consents : List ConsentRec)
    (lastlogins : List LLRec) (now : Int) (rng : RngState) (dstr sustr : String)
    (hdv : req.d = some dstr) (hdvalid : dstr = quote_plus ['=', '$'] dstr)
    (hdne : dstr ≠ "")
    (hsv : req.su = some sustr) (hsuv : strStartsWith sustr "/" = true)
    (hauth : req.authenticated = true)
    (hf : user.first_name ≠ "") (hl : user.last_name ≠ "") (he : user.email ≠ "")
    (hcool : ¬(0 < site.cooloff_hours ∧
      now - user.date_joined < 3600 * (site.cooloff_hours : Int)))
    (hcons : site.org.require_consent = false ∨
      consentExists consents user.uid site.org.oid = true) :
    communityauth E site req user ses consents lastlogins now rng =
        (AuthResult.redirect (successRedirectUrl E site rng
          (serializeAuthRecord now user ses (some dstr) (some sustr))),
         upsertLastLogin lastlogins user.uid site.sid now, (rngRead rng 16).2)
      ∧ serializeAuthRecord now user ses (some dstr) (some sustr) =
          serializeAuthRecord now user ses (some dstr) none
      ∧ urldataOf (some dstr) (some sustr) = "?d=" ++ dstr := by
  have hd' : processD req.d = some dstr := by
    rw [hdv]
    simp [processD, ← hdvalid]
  have hsu' : processSu req.su = some sustr := by
    rw [hsv]
    simp [processSu, hsuv]
  have hne : dstr.isEmpty = false := by
    rw [Bool.eq_false_iff]
    intro hc
    exact hdne ((String.isEmpty_iff dstr).mp hc)
  have hcb : (site.cooloff_hours > 0 &&
      decide (now - user.date_joined < 3600 * (site.cooloff_hours : Int))) = false := by
    rw [Bool.eq_false_iff]
    intro hc
    simp only [Bool.and_eq_true, decide_eq_true_eq, gt_iff_lt] at hc
    exact hcool hc
  have hcc : (site.org.require_consent &&
      !consentExists consents user.uid site.org.oid) = false := by
    rcases hcons with h | h <;> simp [h]
  refine ⟨?_, ?_, ?_⟩
  · simp [communityauth, hauth, hf, hl, he, hcb, hcc, hd', hsu', rngRead]
  · simp [serializeAuthRecord, authInfoFields, optTruthy, hne]
  · simp [urldataOf, optTruthy, hne]

/-- Request carrying both a non-empty well-formed d and a well-formed su. -/
def reqBoth : AuthRequest := ⟨some "/next", some "abc", true, false, ""⟩

/-- C10 amended, witness: with d = "abc" and su = "/next" both present,
the concrete handoff serializes the d payload, ignores su, and the
return path is ?d=abc. -/
theorem claim_C10_amended_witness :
    communityauth Eid site0 reqBoth user0 [] [] [] 0 rng0 =
        (AuthResult.redirect (successRedirectUrl Eid site0 rng0
          (serializeAuthRecord 0 user0 [] (some "abc") (some "/next"))),
         upsertLastLogin [] user0.uid site0.sid 0, (rngRead rng0 16).2)
      ∧ serializeAuthRecord 0 user0 [] (some "abc") (some "/next") =
          serializeAuthRecord 0 user0 [] (some "abc") none
      ∧ urldataOf (some "abc") (some "/next") = "?d=" ++ "abc" :=
  claim_C10_amended Eid site0 reqBoth user0 [] [] [] 0 rng0 "abc" "/next"
    rfl (by decide) (by decide) rfl (by decide) rfl
    (by decide) (by decide) (by decide) (by decide) (Or.inl rfl)

/-! ## Server-to-server endpoints (C8):
communityauth_search (lines 597-625) and communityauth_getkeys
(lines 628-641). -/

/-- get_object_or_404(CommunityAuthSite, pk=siteid) over a site table. -/
def findSite (sites : List AuthSite) (siteid : Nat) : Option AuthSite :=
  sites.find? (fun s => s.sid = siteid)

/-- A user row as consumed by the search endpoint, with its prefetched
confirmed secondary emails. -/
structure SearchUser where
  username : String
  first_name : String
  last_name : String
  email : String
  is_active : Bool
  secondary : List SecondaryEmailRec
deriving Repr, DecidableEq

/-- A user profile row as consumed by the key export endpoint. -/
structure ProfileRec where
  username : String
  sshkey : String
  lastmodified : Int
deriving Repr, DecidableEq

/-- The GET parameters of the search endpoint. -/
structure SearchQuery where
  s : Option String
  e : Option String
  n : Option String
  u : Option String
deriving Repr, DecidableEq

/-- An HTTP outcome of the server-to-server endpoints. -/
inductive HttpResult where
  | notFound
  | serverError
  | ok (body : String)
deriving Repr, DecidableEq

/-- Substring test on character lists. -/
def containsSub (needle : List Char) : List Char → Bool
  | [] => needle.isEmpty
  | c :: t => needle.isPrefixOf (c :: t) || containsSub needle t

/-- The ORM icontains lookup: case-insensitive substring match. -/
def icontains (hay needle : String) : Bool :=
  containsSub (needle.toList.map Char.toLower) (hay.toList.map Char.toLower)

/-- Lines 602-615: build the Q filter and run it, or None for the
Http404 when no search term is given.  Every branch keeps
is_active=True. -/
def searchUsersResult (q : SearchQuery) (users : List SearchUser) :
    Option (List SearchUser) :=
  if optTruthy q.s then
    some (users.filter (fun u => u.is_active &&
      (icontains u.email (q.s.getD "") || icontains u.first_name (q.s.getD "") ||
        icontains u.last_name (q.s.getD ""))))
  else if optTruthy q.e then
    some (users.filter (fun u => u.is_active && icontains u.email (q.e.getD "")))
  else if optTruthy q.n then
    some (users.filter (fun u => u.is_active &&
      (icontains u.first_name (q.n.getD "") || icontains u.last_name (q.n.getD ""))))
  else if optTruthy q.u then
    some (users.filter (fun u => u.is_active && u.username = q.u.getD ""))
  else none

/-- Lowercase hexadecimal digit, as in json.dumps escapes. -/
def hexDigitLower (n : Nat) : Char :=
  "0123456789abcdef".toList.getD n '0'

/-- A json \uXXXX escape. -/
def jsonU (m : Nat) : List Char :=
  ['\\', 'u', hexDigitLower (m / 4096 % 16), hexDigitLower (m / 256 % 16),
   hexDigitLower (m / 16 % 16), hexDigitLower (m % 16)]

/-- json.dumps escaping of one character (ensure_ascii default). -/
def jsonEscapeChar (c : Char) : List Char :=
  if c = '"' then ['\\', '"']
  else if c = '\\' then ['\\', '\\']
  else if c = '\n' then ['\\', 'n']
  else if c = '\r' then ['\\', 'r']
  else if c = '\t' then ['\\', 't']
  else if c.toNat = 8 then ['\\', 'b']
  else if c.toNat = 12 then ['\\', 'f']
  else if c.toNat < 32 || c.toNat > 126 then
    if c.toNat < 65536 then jsonU c.toNat
    else jsonU (55296 + (c.toNat - 65536) / 1024) ++ jsonU (56320 + (c.toNat - 65536) % 1024)
  else [c]

/-- json.dumps of one string. -/
def jsonStr (s : String) : String :=
  "\"" ++ String.mk (s.toList.foldr (fun c acc => jsonEscapeChar c ++ acc) []) ++ "\""

/-- Lines 617-623: the json document for one found user. -/
def searchUserJson (u : SearchUser) : String :=
  "\x7b\"u\": " ++ jsonStr u.username ++ ", \"e\": " ++ jsonStr u.email ++
  ", \"f\": " ++ jsonStr u.first_name ++ ", \"l\": " ++ jsonStr u.last_name ++
  ", \"se\": [" ++ String.intercalate ", "
    ((u.secondary.filter (fun a => a.confirmed)).map (fun a => jsonStr a.email)) ++ "]\x7d"

/-- json.dumps of the search result list. -/
def searchJson (users : List SearchUser) : String :=
  "[" ++ String.intercalate ", " (users.map searchUserJson) ++ "]"

/-- The communityauth_search view. -/
def communityauth_search (E : List Nat → List Nat → List Nat)
    (sites : List AuthSite) (siteid : Nat) (q : SearchQuery)
    (users : List SearchUser) (rng : RngState) : HttpResult × RngState :=
  match findSite sites siteid with
  | none => (.notFound, rng)
  | some site =>
    match searchUsersResult q users with
    | none => (.notFound, rng)
    | some us =>
      let r := encrypt_site_response E site (searchJson us) rng
      (.ok r.1, r.2)

/-- sshkey.replace(CR, LF) of line 639. -/
def replaceCR (s : String) : String :=
  String.mk (s.toList.map (fun c => if c = '\r' then '\n' else c))

/-- int(since.replace('/', '')): drop slashes, then parse the digits
(None models the int() ValueError). -/
def parseIntSimple (s : String) : Option Int :=
  let l := s.toList.filter (fun c => c ≠ '/')
  if l ≠ [] ∧ l.all Char.isDigit then
    some (l.foldl (fun n c => n * 10 + ((c.toNat : Int) - 48)) 0)
  else none

/-- Lines 639: the json document of the exported keys. -/
def getkeysJson (keys : List ProfileRec) : String :=
  "[" ++ String.intercalate ", " (keys.map (fun k =>
    "\x7b\"u\": " ++ jsonStr k.username ++ ", \"s\": " ++
      jsonStr (replaceCR k.sshkey) ++ "\x7d")) ++ "]"

/-- The communityauth_getkeys view. -/
def communityauth_getkeys (E : List Nat → List Nat → List Nat)
    (sites : List AuthSite) (siteid : Nat) (since : Option String)
    (profiles : List ProfileRec) (rng : RngState) : HttpResult × RngState :=
  match findSite sites siteid with
  | none => (.notFound, rng)
  | some site =>
    let keysO : Option (List ProfileRec) :=
      match since with
      | some s =>
          match parseIntSimple s with
          | none => none
          | some ts => some (profiles.filter (fun k =>
              decide (ts ≤ k.lastmodified) && k.sshkey ≠ ""))
      | none => some (profiles.filter (fun k => k.sshkey ≠ ""))
    match keysO with
    | none => (.serverError, rng)
    | some keys =>
      let r := encrypt_site_response E site (getkeysJson keys) rng
      (.ok r.1, r.2)

/-- A read of n bytes returns n bytes. -/
theorem rngBytes_length (r : RngState) (n : Nat) : (rngBytes r n).length = n := by
  simp [rngBytes]

/-- Success computation of the search endpoint. -/
theorem communityauth_search_ok (E : List Nat → List Nat → List Nat)
    (sites : List AuthSite) (siteid : Nat) (q : SearchQuery)
    (users : List SearchUser) (rng : RngState) (site : AuthSite)
    (us : List SearchUser) (hf : findSite sites siteid = some site)
    (hq : searchUsersResult q users = some us) :
    communityauth_search E sites siteid q users rng =
      (HttpResult.ok (encrypt_site_response E site (searchJson us) rng).1,
       (encrypt_site_response E site (searchJson us) rng).2) := by
  unfold communityauth_search
  rw [hf, hq]

/-- The filter the key export applies, as a function of the since
parameter; None models the int() ValueError on a malformed since. -/
def getkeysFilter (since : Option String) (profiles : List ProfileRec) :
    Option (List ProfileRec) :=
  match since with
  | some s =>
      match parseIntSimple s with
      | none => none
      | some ts => some (profiles.filter (fun k =>
          decide (ts ≤ k.lastmodified) && k.sshkey ≠ ""))
  | none => some (profiles.filter (fun k => k.sshkey ≠ ""))

/-- The key export view is the composition of site lookup, the since
filter and the site-key encryption. -/
theorem communityauth_getkeys_eq (E : List Nat → List Nat → List Nat)
    (sites : List AuthSite) (siteid : Nat) (since : Option String)
    (profiles : List ProfileRec) (rng : RngState) :
    communityauth_getkeys E sites siteid since profiles rng =
      match findSite sites siteid with
      | none => (HttpResult.notFound, rng)
      | some site =>
        match getkeysFilter since profiles with
        | none => (HttpResult.serverError, rng)
        | some keys =>
          (HttpResult.ok (encrypt_site_response E site (getkeysJson keys) rng).1,
           (encrypt_site_response E site (getkeysJson keys) rng).2) := by
  unfold communityauth_getkeys getkeysFilter
  rfl

/-- C8.  Every body a partner endpoint sends back — the user search,
the key export, and the handoff redirect parameters — is encrypted
with the key of exactly the site resolved from the request's siteid
(never plaintext, never another site's key), using as IV the 16 bytes
read from the random stream at its current position; each call
advances the stream by 16, so every encryption gets a fresh IV. -/
theorem claim_C8_partner_key_and_fresh_iv :
    (∀ (E : List Nat → List Nat → List Nat) (sites : List AuthSite) (siteid : Nat)
        (q : SearchQuery) (users : List SearchUser) (rng : RngState) (body : String),
        (communityauth_search E sites siteid q users rng).1 = HttpResult.ok body →
        ∃ site us, findSite sites siteid = some site
          ∧ searchUsersResult q users = some us
          ∧ body = b64encodeAlt (rngBytes rng 16) ++ "&" ++
              b64encodeAlt (cbcCipher E (b64decode site.cryptkey) (rngBytes rng 16)
                (searchJson us))
          ∧ (rngBytes rng 16).length = 16
          ∧ (communityauth_search E sites siteid q users rng).2.pos = rng.pos + 16) ∧
    (∀ (E : List Nat → List Nat → List Nat) (sites : List AuthSite) (siteid : Nat)
        (since : Option String) (profiles : List ProfileRec) (rng : RngState)
        (body : String),
        (communityauth_getkeys E sites siteid since profiles rng).1 = HttpResult.ok body →
        ∃ site keys, findSite sites siteid = some site
          ∧ getkeysFilter since profiles = some keys
          ∧ body = b64encodeAlt (rngBytes rng 16) ++ "&" ++
              b64encodeAlt (cbcCipher E (b64decode site.cryptkey) (rngBytes rng 16)
                (getkeysJson keys))
          ∧ (rngBytes rng 16).length = 16
          ∧ (communityauth_getkeys E sites siteid since profiles rng).2.pos = rng.pos + 16) ∧
    (∀ (E : List Nat → List Nat → List Nat) (site : AuthSite) (req : AuthRequest)
        (user : AuthUser) (ses : List SecondaryEmailRec) (consents : List ConsentRec)
        (lastlogins : List LLRec) (now : Int) (rng : RngState) (url : String),
        (communityauth E site req user ses consents lastlogins now rng).1 =
          AuthResult.redirect url →
        url = site.redirecturl ++ "?i=" ++ b64encodeAlt (rngBytes rng 16) ++ "&d=" ++
            b64encodeAlt (cbcCipher E (b64decode site.cryptkey) (rngBytes rng 16)
              (serializeAuthRecord now user ses (processD req.d) (processSu req.su)))
          ∧ (rngBytes rng 16).length = 16
          ∧ (communityauth E site req user ses consents lastlogins now rng).2.2.pos =
              rng.pos + 16) := by
  refine ⟨?_, ?_, ?_⟩
  · intro E sites siteid q users rng body h
    cases hf : findSite sites siteid with
    | none =>
        exfalso
        unfold communityauth_search at h
        rw [hf] at h
        exact absurd h (by simp)
    | some site =>
        cases hq : searchUsersResult q users with
        | none =>
            exfalso
            unfold communityauth_search at h
            rw [hf, hq] at h
            exact absurd h (by simp)
        | some us =>
            have heq := communityauth_search_ok E sites siteid q users rng site us hf hq
            rw [heq] at h
            refine ⟨site, us, rfl, rfl, ?_, rngBytes_length rng 16, ?_⟩
            · have h' : (encrypt_site_response E site (searchJson us) rng).1 = body := by
                simpa using h
              rw [← h']
              rfl
            · rw [heq]
              rfl
  · intro E sites siteid since profiles rng body h
    rw [communityauth_getkeys_eq] at h
    cases hf : findSite sites siteid with
    | none =>
        exfalso
        rw [hf] at h
        exact absurd h (by simp)
    | some site =>
        rw [hf] at h
        cases hg : getkeysFilter since profiles with
        | none =>
            exfalso
            rw [hg] at h
            exact absurd h (by simp)
        | some keys =>
            rw [hg] at h
            refine ⟨site, keys, rfl, rfl, ?_, rngBytes_length rng 16, ?_⟩
            · have h' : (encrypt_site_response E site (getkeysJson keys) rng).1 = body := by
                simpa using h
              rw [← h']
              rfl
            · rw [communityauth_getkeys_eq, hf, hg]
              rfl
  · intro E site req user ses consents lastlogins now rng url h
    obtain ⟨h1, _, h3⟩ :=
      communityauth_redirect_inv E site req user ses consents lastlogins now rng url h
    exact ⟨h1, rngBytes_length rng 16, h3⟩

/-- Fixture user row for the search endpoint. -/
def searchU : SearchUser := ⟨"alice", "Alice", "Ann", "a@ex.org", true, [⟨"z@x.org", true⟩]⟩

/-- Fixture profile row (with a CR in the key) for the key export. -/
def profP : ProfileRec := ⟨"alice", "ssh-rsa AAA\rBBB", 50⟩

/-- C8 witness: concrete search and key-export calls produce bodies
encrypted with the resolved site's key and advance the stream by 16. -/
theorem claim_C8_witness :
    (∃ site us, findSite [site0] 3 = some site
      ∧ searchUsersResult ⟨some "ali", none, none, none⟩ [searchU] = some us
      ∧ "AAAAAAAAAAAAAAAAAAAAAA==&W3sidSI6ICJhbGljZSIsIHkeAE8CGEFiBBRHDBdFDgxZPGZtODhjI2h9JGk1aS4uNR5cTRp5DU1KUQRLRgwMFBVFfjdaASMiODYmFjtRLDQ=" =
          b64encodeAlt (rngBytes rng0 16) ++ "&" ++
            b64encodeAlt (cbcCipher Eid (b64decode site.cryptkey) (rngBytes rng0 16)
              (searchJson us))
      ∧ (rngBytes rng0 16).length = 16
      ∧ (communityauth_search Eid [site0] 3 ⟨some "ali", none, none, none⟩
          [searchU] rng0).2.pos = rng0.pos + 16) ∧
    (∃ site keys, findSite [site0] 3 = some site
      ∧ getkeysFilter (some "4/0") [profP] = some keys
      ∧ "AAAAAAAAAAAAAAAAAAAAAA==&W3sidSI6ICJhbGljZSIsIHkIAE8CGFNRCUEbEAQCbWE4VG4NQFpxLFRhOzAkIk1B" =
          b64encodeAlt (rngBytes rng0 16) ++ "&" ++
            b64encodeAlt (cbcCipher Eid (b64decode site.cryptkey) (rngBytes rng0 16)
              (getkeysJson keys))
      ∧ (rngBytes rng0 16).length = 16
      ∧ (communityauth_getkeys Eid [site0] 3 (some "4/0") [profP] rng0).2.pos =
          rng0.pos + 16) :=
  ⟨claim_C8_partner_key_and_fresh_iv.1 Eid [site0] 3 ⟨some "ali", none, none, none⟩
      [searchU] rng0 _ (by decide),
   claim_C8_partner_key_and_fresh_iv.2.1 Eid [site0] 3 (some "4/0") [profP] rng0 _
      (by decide)⟩

/-! ## Documentation page version resolution (C9):
docpage, src/pgweb/docs/views.py lines 31-61.  Python Decimal values
of version strings are exact non-negative decimals; they are modelled
as mantissa/exponent pairs, value = mant / 10 ^ exp. -/

structure Dec where
  mant : Nat
  exp : Nat
deriving Repr, DecidableEq

/-- Exact comparison of two decimals: cross-multiplied mantissas. -/
def decLt (a b : Dec) : Bool :=
  a.mant * 10 ^ b.exp < b.mant * 10 ^ a.exp

/-- Exact weak comparison. -/
def decLe (a b : Dec) : Bool :=
  a.mant * 10 ^ b.exp ≤ b.mant * 10 ^ a.exp

/-- Exact equality test (e.g. Decimal("10.0") == Decimal(10)). -/
def decEqb (a b : Dec) : Bool :=
  a.mant * 10 ^ b.exp = b.mant * 10 ^ a.exp

/-- int() truncation of a non-negative decimal. -/
def decToNat (a : Dec) : Nat :=
  a.mant / 10 ^ a.exp

/-- Value of a digit list. -/
def digitsVal (l : List Char) : Nat :=
  l.foldl (fun n c => n * 10 + (c.toNat - 48)) 0

/-- Split a character list on a separator character. -/
def splitChar (sep : Char) : List Char → List (List Char)
  | [] => [[]]
  | x :: xs =>
      let r := splitChar sep xs
      if x = sep then [] :: r
      else
        match r with
        | [] => [[x]]
        | h :: t => (x :: h) :: t

/-- Decimal(version): digits with at most one decimal point (the only
shapes reaching this view); anything else raises, modelled as none. -/
def parseDecimal (s : String) : Option Dec :=
  match splitChar '.' s.toList with
  | [a] =>
      if a ≠ [] ∧ a.all Char.isDigit then some ⟨digitsVal a, 0⟩ else none
  | [a, b] =>
      if (a ≠ [] ∨ b ≠ []) ∧ a.all Char.isDigit ∧ b.all Char.isDigit then
        some ⟨digitsVal a * 10 ^ b.length + digitsVal b, b.length⟩
      else none
  | _ => none

/-- str.find(c) > -1, i.e. character containment. -/
def strContains (s : String) (c : Char) : Bool :=
  s.toList.contains c

/-- Outcome of the version-resolution prefix of docpage.  proceed
carries the data the rest of the view (database lookups, release note
redirects — external state) goes on to use. -/
inductive DocResolve where
  | versionNotFound
  | badVersion
  | permanentRedirect (url : String)
  | proceed (ver : Dec) (extension indexname fullname : String)
deriving Repr, DecidableEq

/-- Lines 46-63 for an already resolved version number: extension and
index name conventions, then the whole-number redirect for dotted
versions 10 and up. -/
def docpageResolveVer (ver : Dec) (version filename : String) : DocResolve :=
  let extension := if decLt ver ⟨71, 1⟩ && decLt ⟨0, 0⟩ ver then "htm" else "html"
  let indexname := if decLt ver ⟨71, 1⟩ && decLt ⟨0, 0⟩ ver then "postgres.htm"
    else if decEqb ver ⟨71, 1⟩ then "postgres.html"
    else "index.html"
  if decLe ⟨10, 0⟩ ver && strContains version '.' then
    .permanentRedirect ("/docs/" ++ toString (decToNat ver) ++ "/" ++ filename ++ ".html")
  else
    .proceed ver extension indexname (filename ++ "." ++ extension)

/-- Lines 31-63 of docpage: resolve the version string (current, devel
or a Decimal), reject version 0 spelled numerically, then resolve
conventions and the dotted-version redirect. -/
def docpage (currentTree : Dec) (version filename : String) : DocResolve :=
  if version = "current" then docpageResolveVer currentTree version filename
  else if version = "devel" then docpageResolveVer ⟨0, 0⟩ version filename
  else
    match parseDecimal version with
    | none => .badVersion
    | some ver =>
        if decEqb ver ⟨0, 0⟩ then .versionNotFound
        else docpageResolveVer ver version filename

/-- C9.  A documentation request whose version parses to a value of 10
or more and is written with a decimal component is answered with a
permanent redirect to the same filename with the .html extension under
the whole-number major version. -/
theorem claim_C9_dotted_version_redirect (currentTree : Dec)
    (version filename : String) (v : Dec)
    (hp : parseDecimal version = some v)
    (h10 : decLe ⟨10, 0⟩ v = true)
    (hdot : strContains version '.' = true) :
    docpage currentTree version filename =
      DocResolve.permanentRedirect
        ("/docs/" ++ toString (decToNat v) ++ "/" ++ filename ++ ".html") := by
  have hcur : version ≠ "current" := by
    intro he
    rw [he] at hp
    have hcn : parseDecimal "current" = none := by decide
    rw [hcn] at hp
    exact Option.noConfusion hp
  have hdev : version ≠ "devel" := by
    intro he
    rw [he] at hp
    have hcn : parseDecimal "devel" = none := by decide
    rw [hcn] at hp
    exact Option.noConfusion hp
  have hz : decEqb v ⟨0, 0⟩ = false := by
    rw [Bool.eq_false_iff]
    intro hc
    unfold decEqb at hc
    unfold decLe at h10
    simp only [decide_eq_true_eq] at hc h10
    have hpow : 0 < 10 ^ v.exp := Nat.pos_pow_of_pos v.exp (by omega)
    simp only [pow_zero, mul_one] at hc h10
    omega
  unfold docpage
  rw [if_neg hcur, if_neg hdev, hp]
  dsimp only
  rw [if_neg (by rw [hz]; exact Bool.false_ne_true)]
  unfold docpageResolveVer
  rw [if_pos (by rw [h10, hdot]; rfl)]

/-- C9 witness: /docs/10.5/foo permanently redirects to
/docs/10/foo.html. -/
theorem claim_C9_witness :
    decLe ⟨10, 0⟩ ⟨105, 1⟩ = true ∧ strContains "10.5" '.' = true ∧
    docpage ⟨17, 0⟩ "10.5" "foo" =
      DocResolve.permanentRedirect "/docs/10/foo.html" :=
  ⟨by decide, by decide,
   claim_C9_dotted_version_redirect ⟨17, 0⟩ "10.5" "foo" ⟨105, 1⟩
     (by decide) (by decide) (by decide)⟩

/-- C5 witness: on the consent-requiring concrete site with no consent
record the handoff redirects to the consent-capture step and writes no
login-count row. -/
theorem claim_C5_witness :
    communityauth Eid siteC req1 user0 [] [] [] 0 rng0 =
      (AuthResult.consentRedirect ("/account/auth/" ++ toString siteC.sid ++
        "/consent/?" ++ urlencodeDict [("next", "/account/auth/" ++
          toString siteC.sid ++ "/" ++
          urldataOf (processD req1.d) (processSu req1.su))]), [], rng0) :=
  (claim_C5_consent Eid siteC req1 user0 [] [] [] 0 rng0 rfl
    (by decide) (by decide) (by decide) (by decide) rfl rfl).1

/-- C7 witness: inserting for a missing pair writes count 1; a second
handoff increments to exactly 2 and refreshes the timestamp. -/
theorem claim_C7_witness :
    upsertLastLogin [] 7 3 5 = [⟨7, 3, 5, 1⟩] ∧
    findLL (upsertLastLogin [⟨7, 3, 5, 1⟩] 7 3 9) 7 3 = some ⟨7, 3, 9, 2⟩ :=
  ⟨claim_C7_lastlogin_upsert.1 [] 7 3 5 rfl,
   claim_C7_lastlogin_upsert.2.1 [⟨7, 3, 5, 1⟩] 7 3 9 ⟨7, 3, 5, 1⟩ (by decide)⟩
